import Mathlib

/-!
# Verification of the Cognify synchronized stem-playback engine

Shallow embedding of the Web-Audio playback engine of the Cognify
frontend (the `AudioPlayer` component and the global `audioCache`).
Times, rates and gains are modelled as rationals; JavaScript's `%`
remainder on numbers is modelled by truncated division.  Stateful
React refs become fields of an explicit `PlayerState`, and the
handlers (`play`, `pause`, `changeSpeed`, `handleSeek`, loop-point
setters, the polling `update` tick, the mute effect) become state
transformers translated line by line from the source.
-/

namespace Cognify

/-- Truncation toward zero of a rational, as JavaScript's implicit
integer conversion in the `%` operator behaves (sign of the dividend). -/
def ratTrunc (q : ℚ) : ℤ := if 0 ≤ q then ⌊q⌋ else ⌈q⌉

/-- JavaScript's `%` remainder on numbers: `a - b * trunc (a / b)`. -/
def jsMod (a b : ℚ) : ℚ := a - b * (ratTrunc (a / b) : ℚ)

/-- The looping state held in `isLoopingRef` / `loopStartRef` / `loopEndRef`
(a `null` bound is `none`). -/
structure LoopCfg where
  isLooping : Bool
  loopStart : Option ℚ
  loopEnd : Option ℚ
  deriving DecidableEq

/-- The helper `getNormalizedTime` of the player: when looping with both
bounds set and `end > start`, wrap times at or past the end bound back
into the region, clamp times before the start bound to the start, and
otherwise return the raw time unchanged. -/
def getNormalizedTime (cfg : LoopCfg) (rawTime : ℚ) : ℚ :=
  match cfg.isLooping, cfg.loopStart, cfg.loopEnd with
  | true, some a, some b =>
    if b > a then
      if rawTime ≥ b then a + jsMod (rawTime - a) (b - a)
      else if rawTime < a then a
      else rawTime
    else rawTime
  | _, _, _ => rawTime

/-- The configuration a created `AudioBufferSourceNode` carries after the
player has set it up: start offset, playback rate, native loop flag and
bounds (Web-Audio defaults `loopStart = loopEnd = 0` when unset), and
whether `stop()` has been called on it. -/
structure SourceCfg where
  offset : ℚ
  rate : ℚ
  loop : Bool
  loopStart : ℚ
  loopEnd : ℚ
  stopped : Bool
  deriving DecidableEq

/-- The mutable player state: the refs and React state of the component.
`hasCtx` models `audioContextRef.current` being non-null; `buffers` is the
list of track keys in `buffersRef.current`; `sources` is `sourcesRef.current`. -/
structure PlayerState where
  hasCtx : Bool
  isLoading : Bool
  buffers : List String
  sources : List (String × SourceCfg)
  duration : ℚ
  isPlaying : Bool
  currentTime : ℚ
  pauseTime : ℚ
  anchorTime : ℚ
  anchorCtxTime : ℚ
  playbackRate : ℚ
  loop : LoopCfg
  deriving DecidableEq

/-- In-loop song-time computation `anchorTime + (now - anchorCtx) * rate`,
as written in `update`, `pause` and `changeSpeed`. -/
def rawSongTimeAt (s : PlayerState) (now : ℚ) : ℚ :=
  s.anchorTime + (now - s.anchorCtxTime) * s.playbackRate

/-- The per-track source set up inside `play`'s forEach: native loop bounds
when looping with both bounds set, the current playback rate, and the start
offset guarded against running past the end of the buffer. -/
def mkSource (cfg : LoopCfg) (rate startOffset duration : ℚ) : SourceCfg :=
  let loopOn := cfg.isLooping && cfg.loopStart.isSome && cfg.loopEnd.isSome
  { offset := if startOffset ≥ duration then 0 else startOffset
    rate := rate
    loop := loopOn
    loopStart := if loopOn then cfg.loopStart.getD 0 else 0
    loopEnd := if loopOn then cfg.loopEnd.getD 0 else 0
    stopped := false }

/-- The `play` handler: no-op when the context is gone or a load is in
progress; otherwise normalizes `pauseTime` into the loop region, replaces
every track's source with one starting at that offset, and re-anchors the
clock at `(now, startOffset)`.  The code's trailing synchronous call to
`update()` (the first polling tick) is modelled separately by `update`. -/
def play (s : PlayerState) (now : ℚ) : PlayerState :=
  if !s.hasCtx || s.isLoading then s
  else
    let startOffset := getNormalizedTime s.loop s.pauseTime
    { s with
      sources := s.buffers.map
        (fun k => (k, mkSource s.loop s.playbackRate startOffset s.duration))
      anchorCtxTime := now
      anchorTime := startOffset
      isPlaying := true }

/-- The `pause` handler: no-op without a context; otherwise stops every
source, stores the normalized current song time as `pauseTime`, and leaves
the Playing state. -/
def pause (s : PlayerState) (now : ℚ) : PlayerState :=
  if !s.hasCtx then s
  else
    { s with
      sources := s.sources.map (fun kc => (kc.1, { kc.2 with stopped := true }))
      pauseTime := getNormalizedTime s.loop (rawSongTimeAt s now)
      isPlaying := false }

/-- Outcome of one polling tick: the tick bailed out (no context), ended the
song, or reported a song time through `setCurrentTime` / `onTimeUpdate`. -/
inductive TickOutcome where
  | skipped
  | ended
  | reported (t : ℚ)
  deriving DecidableEq

/-- One iteration of the `update` polling loop: compute the raw song time
from the anchor; if looping with both bounds set report the normalized
time, else if the song end is reached pause, zero `pauseTime` and the
displayed time, else report the raw time. -/
def update (s : PlayerState) (now : ℚ) : PlayerState × TickOutcome :=
  if !s.hasCtx then (s, .skipped)
  else
    let trackTime := rawSongTimeAt s now
    if s.loop.isLooping && s.loop.loopEnd.isSome && s.loop.loopStart.isSome then
      let t := getNormalizedTime s.loop trackTime
      ({ s with currentTime := t }, .reported t)
    else if trackTime ≥ s.duration then
      let s1 := pause s now
      ({ s1 with pauseTime := 0, currentTime := 0 }, .ended)
    else
      ({ s with currentTime := trackTime }, .reported trackTime)

/-- The speed cycle `[0.5, 0.75, 1.0, 1.25, 1.5]` of `changeSpeed`. -/
def speeds : List ℚ := [1/2, 3/4, 1, 5/4, 3/2]

/-- JavaScript `Array.prototype.indexOf`: index of the first occurrence,
`-1` when absent. -/
def jsIndexOf (xs : List ℚ) (x : ℚ) : ℤ :=
  match xs.findIdx? (fun y => y == x) with
  | some i => (i : ℤ)
  | none => -1

/-- The speed selection of `changeSpeed`: the entry after the current one
in the cycle, wrapping around (`indexOf` of an unknown rate gives `-1`,
so the cycle restarts at `0.5`). -/
def nextSpeed (r : ℚ) : ℚ :=
  speeds.getD (((jsIndexOf speeds r + 1) % (speeds.length : ℤ)).toNat) 0

/-- The `changeSpeed` handler: pick the next speed in the cycle; when a
context exists and we are playing, first compute the current song time
under the old rate, normalize it, and re-anchor at `(now, currentSongTime)`;
then install the new rate both in the state and on every source. -/
def changeSpeed (s : PlayerState) (now : ℚ) : PlayerState :=
  let newSpeed := nextSpeed s.playbackRate
  let s1 :=
    if s.hasCtx && s.isPlaying then
      let currentSongTime :=
        getNormalizedTime s.loop (rawSongTimeAt s now)
      { s with anchorTime := currentSongTime, anchorCtxTime := now }
    else s
  { s1 with
    playbackRate := newSpeed
    sources := s1.sources.map (fun kc => (kc.1, { kc.2 with rate := newSpeed })) }

/-- The `handleSeek` handler, with the click position already translated to
the target time `newTime`: guarded on a load in progress (the canvas is
assumed mounted); resets `pauseTime` and both anchors, updates the
displayed time, and restarts playback when currently playing. -/
def handleSeek (s : PlayerState) (newTime now : ℚ) : PlayerState :=
  if s.isLoading then s
  else
    let s1 :=
      { s with
        pauseTime := newTime
        anchorTime := newTime
        anchorCtxTime := if s.hasCtx then now else s.anchorCtxTime
        currentTime := newTime }
    if s1.isPlaying then play s1 now else s1

/-- The `toggleLoop` handler: flips looping; on disable clears both bounds
and switches native looping off on every source. -/
def toggleLoop (s : PlayerState) : PlayerState :=
  let newLooping := !s.loop.isLooping
  if newLooping then
    { s with loop := { s.loop with isLooping := true } }
  else
    { s with
      loop := { isLooping := false, loopStart := none, loopEnd := none }
      sources := s.sources.map (fun kc => (kc.1, { kc.2 with loop := false })) }

/-- The `setLoopPointA` handler: stores the displayed time as the loop
start and turns looping on, with no further validation. -/
def setLoopPointA (s : PlayerState) : PlayerState :=
  { s with
    loop :=
      { isLooping := true
        loopStart := some s.currentTime
        loopEnd := s.loop.loopEnd } }

/-- The `setLoopPointB` handler: stores the displayed time as the loop end
and turns looping on, but only when a start exists and the displayed time
is strictly past it; otherwise the state is unchanged. -/
def setLoopPointB (s : PlayerState) : PlayerState :=
  match s.loop.loopStart with
  | some a =>
    if s.currentTime > a then
      { s with
        loop :=
          { isLooping := true
            loopStart := some a
            loopEnd := some s.currentTime } }
    else s
  | none => s

/-! ## The asset cache (`audioCache` in `AudioCache.ts`)

Decoded buffers are given numeric identities allocated by a counter, so
that two separate `decodeAudioData` results are distinct references.
Each `get(url)` call runs in atomic segments separated by its `await`
points: the synchronous prefix up to and including the `buffers.has(url)`
check, and the fetch/decode/store tail.  An explicit schedule interleaves
the segments of several calls, as the single-threaded event loop does. -/

/-- State of the global `audioCache`: the url-keyed buffer map, the next
fresh buffer identity, and how many fetch+decode operations have run. -/
structure CacheState where
  buffers : List (String × ℕ)
  nextBufId : ℕ
  decodeCount : ℕ
  deriving DecidableEq

/-- Map lookup (`buffers.get(url)` guarded by `buffers.has(url)`). -/
def lookupBuf (bs : List (String × ℕ)) (url : String) : Option ℕ :=
  match bs.find? (fun p => p.1 == url) with
  | some p => some p.2
  | none => none

/-- Progress of one `audioCache.get(url)` call: not yet started its body,
past the cache check and awaiting fetch+decode, or returned a buffer. -/
inductive GetPhase where
  | start
  | fetching
  | done (buf : ℕ)
  deriving DecidableEq

/-- One pending `audioCache.get` invocation. -/
structure GetCall where
  url : String
  phase : GetPhase
  deriving DecidableEq

/-- One atomic segment of `audioCache.get`: from `.start`, the synchronous
cache check either returns the cached buffer or commits to fetching; from
`.fetching`, the awaited fetch+decode completes, stores the fresh buffer
under the url and returns it.  A finished call is inert. -/
def getStep (s : CacheState) (c : GetCall) : CacheState × GetCall :=
  match c.phase with
  | .start =>
    match lookupBuf s.buffers c.url with
    | some b => (s, { c with phase := .done b })
    | none => (s, { c with phase := .fetching })
  | .fetching =>
    let b := s.nextBufId
    ({ buffers := (c.url, b) :: s.buffers
       nextBufId := b + 1
       decodeCount := s.decodeCount + 1 },
     { c with phase := .done b })
  | .done _ => (s, c)

/-- Run the calls under an interleaving schedule: each schedule entry steps
the call with that index once (out-of-range entries are skipped). -/
def runSchedule (s : CacheState) (calls : List GetCall) :
    List ℕ → CacheState × List GetCall
  | [] => (s, calls)
  | i :: rest =>
    match calls.get? i with
    | none => runSchedule s calls rest
    | some c =>
      let sc := getStep s c
      runSchedule sc.1 (calls.set i sc.2) rest

/-! ## The mixer (`initAudio` defaults and the mute effect) -/

/-- The closed set of isolated stems. -/
inductive StemId where
  | vocals
  | drums
  | bass
  | other
  deriving DecidableEq

/-- The `stemMutes` React state. -/
structure StemMutes where
  vocals : Bool
  drums : Bool
  bass : Bool
  other : Bool
  deriving DecidableEq

/-- The initial `stemMutes` state: every stem unmuted. -/
def initialStemMutes : StemMutes := ⟨false, false, false, false⟩

/-- The `isMasterMuted` value after `initAudio` completes: it starts
`false` and is set to `true` exactly when the analysis supplies stems. -/
def initMasterMuted (hasStems : Bool) : Bool := hasStems

/-- The per-track gain values installed by the mute effect. -/
structure MixGains where
  master : ℚ
  vocals : ℚ
  drums : ℚ
  bass : ℚ
  other : ℚ
  deriving DecidableEq

/-- The mute `useEffect`: the master gain is `0` when `isMasterMuted` and
`1` otherwise, and each stem gain is `0` when that stem is muted and `1`
otherwise — each gain depends only on its own flag. -/
def applyMutes (isMasterMuted : Bool) (sm : StemMutes) : MixGains :=
  { master := if isMasterMuted then 0 else 1
    vocals := if sm.vocals then 0 else 1
    drums := if sm.drums then 0 else 1
    bass := if sm.bass then 0 else 1
    other := if sm.other then 0 else 1 }

/-- Read one stem's gain. -/
def MixGains.stem (g : MixGains) : StemId → ℚ
  | .vocals => g.vocals
  | .drums => g.drums
  | .bass => g.bass
  | .other => g.other

/-- The stem mute-button handler: flip exactly one stem's flag. -/
def toggleStem (k : StemId) (sm : StemMutes) : StemMutes :=
  match k with
  | .vocals => { sm with vocals := !sm.vocals }
  | .drums => { sm with drums := !sm.drums }
  | .bass => { sm with bass := !sm.bass }
  | .other => { sm with other := !sm.other }

/-! ## Spec-side reading of loop normalization (for the refinement claim) -/

/-- Mathematical modulo on rationals: `a - b * floor (a / b)`. -/
def ratMod (a b : ℚ) : ℚ := a - b * (⌊a / b⌋ : ℚ)

/-- Loop normalization exactly as the spec words it, for a region from
`a` to `b`: at or past the end, `loopStart + ((raw - loopStart) mod
(loopEnd - loopStart))`; before the start, clamp to `loopStart`;
otherwise the identity. -/
def specNormalize (a b raw : ℚ) : ℚ :=
  if raw ≥ b then a + ratMod (raw - a) (b - a)
  else if raw < a then a
  else raw

/-- Every pair of sources in the registry carries the same configuration
(offset, rate, native loop setup). -/
def sourcesAligned (l : List (String × SourceCfg)) : Prop :=
  ∀ c1 ∈ l, ∀ c2 ∈ l, (c1 : String × SourceCfg).2 = c2.2

/-! ## Concrete states used to exercise the model -/

/-- A freshly initialized single-track player for a 10-second song. -/
def initState (dur : ℚ) : PlayerState :=
  { hasCtx := true, isLoading := false, buffers := ["master"], sources := [],
    duration := dur, isPlaying := false, currentTime := 0, pauseTime := 0,
    anchorTime := 0, anchorCtxTime := 0, playbackRate := 1,
    loop := ⟨false, none, none⟩ }

/-- A two-track player in the Playing state, anchored at the origin. -/
def pstate : PlayerState :=
  { hasCtx := true, isLoading := false, buffers := ["master", "vocals"],
    sources := [], duration := 10, isPlaying := true, currentTime := 0,
    pauseTime := 0, anchorTime := 0, anchorCtxTime := 0, playbackRate := 1,
    loop := ⟨false, none, none⟩ }

/-- A user session: play from 0, tick to 2, set loop point A, tick to 4,
set loop point B (region 2..4), pause, seek to 5 while paused. -/
def c5pre : PlayerState :=
  handleSeek (pause (setLoopPointB
    (update (setLoopPointA (update (play (initState 10) 0) 2).1) 4).1) 4) 5 4

/-- The session above followed by one more press of the A button. -/
def c5state : PlayerState := setLoopPointA c5pre

/-- The playing state with an active loop region 2..4, anchored at song
time 1 — the spec's end-to-end looping scenario. -/
def lpstate : PlayerState :=
  { pstate with loop := ⟨true, some 2, some 4⟩, anchorTime := 1 }

/-- The playing state anchored at song time 9, two seconds from the end
of its 10-second song. -/
def estate : PlayerState :=
  { pstate with anchorTime := 9 }

/-- The player after a failed load: the context was created, loading has
finished, but no buffer ever resolved (so `duration` was never set). -/
def notReadyState : PlayerState :=
  { hasCtx := true, isLoading := false, buffers := [], sources := [],
    duration := 0, isPlaying := false, currentTime := 0, pauseTime := 0,
    anchorTime := 0, anchorCtxTime := 0, playbackRate := 1,
    loop := ⟨false, none, none⟩ }

/-- The player while a load is still in progress. -/
def loadingState : PlayerState :=
  { notReadyState with isLoading := true }

/-- Two concurrent `get "u"` calls on an empty cache, interleaved so that
both synchronous cache checks run before either fetch completes — the
schedule the JavaScript event loop produces when both calls are issued
in the same task. -/
def cacheRace : CacheState × List GetCall :=
  runSchedule ⟨[], 0, 0⟩ [⟨"u", .start⟩, ⟨"u", .start⟩] [0, 1, 0, 1]

/-! ## Helper lemmas -/

lemma jsMod_eq_floor (a b : ℚ) (ha : 0 ≤ a) (hb : 0 < b) :
    jsMod a b = a - b * (⌊a / b⌋ : ℚ) := by
  unfold jsMod ratTrunc
  rw [if_pos (div_nonneg ha hb.le)]

lemma jsMod_nonneg (a b : ℚ) (ha : 0 ≤ a) (hb : 0 < b) : 0 ≤ jsMod a b := by
  rw [jsMod_eq_floor a b ha hb]
  have h1 : (⌊a / b⌋ : ℚ) ≤ a / b := Int.floor_le _
  have h2 : b * (⌊a / b⌋ : ℚ) ≤ b * (a / b) := by
    exact mul_le_mul_of_nonneg_left h1 hb.le
  have h3 : b * (a / b) = a := by field_simp
  linarith

lemma jsMod_lt (a b : ℚ) (ha : 0 ≤ a) (hb : 0 < b) : jsMod a b < b := by
  rw [jsMod_eq_floor a b ha hb]
  have h1 : a / b < (⌊a / b⌋ : ℚ) + 1 := Int.lt_floor_add_one _
  have h2 : b * (a / b) < b * ((⌊a / b⌋ : ℚ) + 1) := by
    exact mul_lt_mul_of_pos_left h1 hb
  have h3 : b * (a / b) = a := by field_simp
  nlinarith

/-- With a valid active region the normalized time always lands in
the half-open interval from the start bound to the end bound. -/
lemma getNormalizedTime_mem (cfg : LoopCfg) (a b rawTime : ℚ)
    (hl : cfg.isLooping = true) (hs : cfg.loopStart = some a)
    (he : cfg.loopEnd = some b) (hv : a < b) :
    a ≤ getNormalizedTime cfg rawTime ∧ getNormalizedTime cfg rawTime < b := by
  obtain ⟨l, s, e⟩ := cfg
  simp only at hl hs he
  subst hl hs he
  simp only [getNormalizedTime, if_pos hv]
  by_cases h1 : rawTime ≥ b
  · rw [if_pos h1]
    have ha0 : 0 ≤ rawTime - a := by linarith
    have hb0 : 0 < b - a := by linarith
    have := jsMod_nonneg (rawTime - a) (b - a) ha0 hb0
    have := jsMod_lt (rawTime - a) (b - a) ha0 hb0
    constructor <;> linarith
  · rw [if_neg h1]
    by_cases h2 : rawTime < a
    · rw [if_pos h2]; constructor <;> linarith
    · rw [if_neg h2]; constructor <;> [linarith; linarith]

/-- Times already inside a valid active region are left unchanged. -/
lemma getNormalizedTime_fixed (cfg : LoopCfg) (a b t : ℚ)
    (hl : cfg.isLooping = true) (hs : cfg.loopStart = some a)
    (he : cfg.loopEnd = some b) (hv : a < b)
    (h1 : a ≤ t) (h2 : t < b) :
    getNormalizedTime cfg t = t := by
  obtain ⟨l, s, e⟩ := cfg
  simp only at hl hs he
  subst hl hs he
  simp only [getNormalizedTime, if_pos hv]
  rw [if_neg (by linarith), if_neg (by linarith)]

/-- Normalization is the identity on an inverted (invalid) region. -/
lemma getNormalizedTime_id_of_invalid (cfg : LoopCfg) (a b rawTime : ℚ)
    (hs : cfg.loopStart = some a) (he : cfg.loopEnd = some b)
    (hv : ¬ b > a) :
    getNormalizedTime cfg rawTime = rawTime := by
  obtain ⟨l, s, e⟩ := cfg
  simp only at hs he
  subst hs he
  cases l
  · rfl
  · simp only [getNormalizedTime, if_neg hv]

/-- Normalization is the identity when looping is off or a bound is unset. -/
lemma getNormalizedTime_id_of_inactive (cfg : LoopCfg) (rawTime : ℚ)
    (h : (cfg.isLooping && cfg.loopEnd.isSome && cfg.loopStart.isSome) = false) :
    getNormalizedTime cfg rawTime = rawTime := by
  obtain ⟨l, s, e⟩ := cfg
  cases l <;> cases s <;> cases e <;> simp_all [getNormalizedTime]

/-- Normalizing twice under an active valid region is the same as once. -/
lemma getNormalizedTime_idem (cfg : LoopCfg) (rawTime : ℚ) :
    getNormalizedTime cfg (getNormalizedTime cfg rawTime) =
      getNormalizedTime cfg rawTime := by
  rcases h : cfg.isLooping with _ | _
  · obtain ⟨l, s, e⟩ := cfg; simp_all [getNormalizedTime]
  · rcases hs : cfg.loopStart with _ | a
    · obtain ⟨l, s, e⟩ := cfg; simp_all [getNormalizedTime]
    · rcases he : cfg.loopEnd with _ | b
      · obtain ⟨l, s, e⟩ := cfg; simp_all [getNormalizedTime]
      · by_cases hv : a < b
        · obtain ⟨h1, h2⟩ := getNormalizedTime_mem cfg a b rawTime h hs he hv
          exact getNormalizedTime_fixed cfg a b _ h hs he hv h1 h2
        · rw [getNormalizedTime_id_of_invalid cfg a b _ hs he hv,
              getNormalizedTime_id_of_invalid cfg a b _ hs he hv]

/-- Action of `pause` when a context exists. -/
lemma pause_eq (s : PlayerState) (now : ℚ) (h : s.hasCtx = true) :
    pause s now =
      { s with
        sources := s.sources.map (fun kc => (kc.1, { kc.2 with stopped := true }))
        pauseTime := getNormalizedTime s.loop (rawSongTimeAt s now)
        isPlaying := false } := by
  unfold pause
  rw [h]
  rfl

/-- Action of `play` when a context exists and no load is in progress. -/
lemma play_eq (s : PlayerState) (now : ℚ)
    (h1 : s.hasCtx = true) (h2 : s.isLoading = false) :
    play s now =
      { s with
        sources := s.buffers.map (fun k => (k,
          mkSource s.loop s.playbackRate
            (getNormalizedTime s.loop s.pauseTime) s.duration))
        anchorCtxTime := now
        anchorTime := getNormalizedTime s.loop s.pauseTime
        isPlaying := true } := by
  unfold play
  rw [h1, h2]
  rfl

/-- The value a polling tick reports, by case on the loop condition. -/
lemma update_snd (s : PlayerState) (now : ℚ) (h : s.hasCtx = true) :
    (update s now).2 =
      (if (s.loop.isLooping && s.loop.loopEnd.isSome && s.loop.loopStart.isSome) = true
       then .reported (getNormalizedTime s.loop (rawSongTimeAt s now))
       else if rawSongTimeAt s now ≥ s.duration then .ended
       else .reported (rawSongTimeAt s now)) := by
  unfold update
  rw [h]
  simp only [Bool.not_true, Bool.false_eq_true, if_false]
  split
  · rfl
  · split <;> rfl

/-- `changeSpeed` never touches the context flag. -/
lemma changeSpeed_hasCtx (s : PlayerState) (now : ℚ) :
    (changeSpeed s now).hasCtx = s.hasCtx := by
  unfold changeSpeed
  dsimp only
  split <;> rfl

/-- `changeSpeed` never touches the loop configuration. -/
lemma changeSpeed_loop (s : PlayerState) (now : ℚ) :
    (changeSpeed s now).loop = s.loop := by
  unfold changeSpeed
  dsimp only
  split <;> rfl

/-- `changeSpeed` never touches the duration. -/
lemma changeSpeed_duration (s : PlayerState) (now : ℚ) :
    (changeSpeed s now).duration = s.duration := by
  unfold changeSpeed
  dsimp only
  split <;> rfl

/-- While playing, the raw song time right after a speed change at `t0`
equals the normalized song time right before it: the elapsed time against
the new anchor is zero, so the new rate has no effect yet. -/
lemma changeSpeed_raw (s : PlayerState) (t0 : ℚ)
    (h1 : s.hasCtx = true) (h2 : s.isPlaying = true) :
    rawSongTimeAt (changeSpeed s t0) t0 =
      getNormalizedTime s.loop (rawSongTimeAt s t0) := by
  unfold changeSpeed
  rw [h1, h2]
  simp only [Bool.and_self, eq_self_iff_true, if_true]
  unfold rawSongTimeAt
  dsimp only
  ring

/-! ## The claims -/

/-- C2: with a loop active (looping on, both bounds set, end > start),
`getNormalizedTime` computes exactly the spec's normalization — wrap by
`loopStart + ((raw - loopStart) mod (loopEnd - loopStart))` at or past the
end, clamp to `loopStart` below the start, identity in between — and in
particular maps 25 to 15 and 5 to 10 for the region 10..20. -/
theorem loop_normalization_spec (cfg : LoopCfg) (a b : ℚ)
    (hl : cfg.isLooping = true) (hs : cfg.loopStart = some a)
    (he : cfg.loopEnd = some b) (hv : b > a) :
    (∀ raw, getNormalizedTime cfg raw = specNormalize a b raw) ∧
    getNormalizedTime ⟨true, some 10, some 20⟩ 25 = 15 ∧
    getNormalizedTime ⟨true, some 10, some 20⟩ 5 = 10 := by
  refine ⟨?_, ?_, ?_⟩
  · intro raw
    obtain ⟨l, s, e⟩ := cfg
    simp only at hl hs he
    subst hl hs he
    simp only [getNormalizedTime, specNormalize, if_pos hv]
    by_cases h1 : raw ≥ b
    · rw [if_pos h1, if_pos h1,
        jsMod_eq_floor (raw - a) (b - a) (by linarith) (by linarith)]
      rfl
    · rw [if_neg h1, if_neg h1]
  · norm_num [getNormalizedTime, jsMod, ratTrunc]
  · norm_num [getNormalizedTime, jsMod, ratTrunc]

theorem loop_normalization_spec_witness :
    getNormalizedTime ⟨true, some 10, some 20⟩ 25 = specNormalize 10 20 25 ∧
    getNormalizedTime ⟨true, some 10, some 20⟩ 25 = 15 :=
  ⟨(loop_normalization_spec ⟨true, some 10, some 20⟩ 10 20 rfl rfl rfl
      (by norm_num)).1 25,
   (loop_normalization_spec ⟨true, some 10, some 20⟩ 10 20 rfl rfl rfl
      (by norm_num)).2.1⟩

/-- C4 counterexample: two concurrent `audioCache.get` calls for the same
uncached URL, interleaved as the event loop interleaves them (both
synchronous cache checks run before either fetch resolves), perform two
fetch+decode operations and return two distinct buffer references —
there is no shared in-flight operation. -/
theorem cache_dedup_counterexample :
    cacheRace.1.decodeCount = 2 ∧
    cacheRace.2.get? 0 = some ⟨"u", .done 0⟩ ∧
    cacheRace.2.get? 1 = some ⟨"u", .done 1⟩ ∧
    (0 : ℕ) ≠ 1 := by decide

/-- C4 amended: the cache deduplicates only completed results. A `get`
whose cache check runs after another `get` for the same URL has finished
returns the identical cached buffer with no further fetch+decode; but
calls racing before the first completion each decode on their own. -/
theorem cache_dedup_completed_only (s : CacheState) (u : String)
    (h : lookupBuf s.buffers u = none) :
    (runSchedule s [⟨u, .start⟩, ⟨u, .start⟩] [0, 0, 1]).1.decodeCount =
      s.decodeCount + 1 ∧
    (runSchedule s [⟨u, .start⟩, ⟨u, .start⟩] [0, 0, 1]).2.get? 0 =
      some ⟨u, .done s.nextBufId⟩ ∧
    (runSchedule s [⟨u, .start⟩, ⟨u, .start⟩] [0, 0, 1]).2.get? 1 =
      some ⟨u, .done s.nextBufId⟩ := by
  have hstep : getStep s ⟨u, GetPhase.start⟩ = (s, ⟨u, GetPhase.fetching⟩) := by
    simp only [getStep]
    rw [h]
  have hstep2 : getStep s ⟨u, GetPhase.fetching⟩ =
      (⟨(u, s.nextBufId) :: s.buffers, s.nextBufId + 1, s.decodeCount + 1⟩,
       ⟨u, GetPhase.done s.nextBufId⟩) := rfl
  have hlook : lookupBuf ((u, s.nextBufId) :: s.buffers) u = some s.nextBufId := by
    simp [lookupBuf, List.find?]
  have hstep3 :
      getStep ⟨(u, s.nextBufId) :: s.buffers, s.nextBufId + 1, s.decodeCount + 1⟩
        ⟨u, GetPhase.start⟩ =
      (⟨(u, s.nextBufId) :: s.buffers, s.nextBufId + 1, s.decodeCount + 1⟩,
       ⟨u, GetPhase.done s.nextBufId⟩) := by
    simp only [getStep]
    rw [hlook]
  have hrun : runSchedule s [⟨u, .start⟩, ⟨u, .start⟩] [0, 0, 1] =
      (⟨(u, s.nextBufId) :: s.buffers, s.nextBufId + 1, s.decodeCount + 1⟩,
       [⟨u, GetPhase.done s.nextBufId⟩, ⟨u, GetPhase.done s.nextBufId⟩]) := by
    simp only [runSchedule, List.get?, List.set, hstep, hstep2, hstep3]
  rw [hrun]
  exact ⟨rfl, rfl, rfl⟩

theorem cache_dedup_completed_only_witness :
    (runSchedule ⟨[], 0, 0⟩ [⟨"u", .start⟩, ⟨"u", .start⟩] [0, 0, 1]).1.decodeCount = 1 ∧
    (runSchedule ⟨[], 0, 0⟩ [⟨"u", .start⟩, ⟨"u", .start⟩] [0, 0, 1]).2.get? 0 =
      some ⟨"u", .done 0⟩ ∧
    (runSchedule ⟨[], 0, 0⟩ [⟨"u", .start⟩, ⟨"u", .start⟩] [0, 0, 1]).2.get? 1 =
      some ⟨"u", .done 0⟩ :=
  cache_dedup_completed_only ⟨[], 0, 0⟩ "u" rfl

/-- C5 counterexample: starting from a fresh player, the user sets the
valid loop region 2..4, pauses, seeks to 5 and presses the A button
again.  The resulting state has looping enabled with both bounds present
but `loopStart = 5 > 4 = loopEnd`: `setLoopPointA` performed no
validation, and the previously valid region was overwritten rather than
kept. -/
theorem loop_region_invariant_counterexample :
    c5pre.loop = ⟨true, some 2, some 4⟩ ∧
    c5state.loop = ⟨true, some 5, some 4⟩ ∧
    ¬ ((4 : ℚ) > (5 : ℚ)) := by
  refine ⟨?_, ?_, by norm_num⟩ <;>
    norm_num [c5state, c5pre, initState, play, pause, update, handleSeek,
      setLoopPointA, setLoopPointB, getNormalizedTime, jsMod, ratTrunc,
      rawSongTimeAt, mkSource]

/-- C5 amended: only `setLoopPointB` validates the region — it either
leaves the loop state unchanged (rejecting when the current time is not
strictly past the stored start) or installs a region with end > start;
`setLoopPointA` is unvalidated and can produce an active region with
`loopStart ≥ loopEnd`, but such an inverted region is inert: time
normalization is the identity on it. -/
theorem loop_region_invariant_amended (s : PlayerState) :
    ((setLoopPointB s).loop = s.loop ∨
      ∃ a, s.loop.loopStart = some a ∧ a < s.currentTime ∧
        (setLoopPointB s).loop = ⟨true, some a, some s.currentTime⟩) ∧
    (∀ a b raw, s.loop.loopStart = some a → s.loop.loopEnd = some b →
      ¬ b > a → getNormalizedTime s.loop raw = raw) := by
  constructor
  · rcases hl : s.loop.loopStart with _ | a
    · left
      unfold setLoopPointB
      rw [hl]
    · unfold setLoopPointB
      rw [hl]
      dsimp only
      by_cases hc : s.currentTime > a
      · exact Or.inr ⟨a, rfl, hc, by rw [if_pos hc]⟩
      · rw [if_neg hc]
        exact Or.inl rfl
  · intro a b raw hs he hv
    exact getNormalizedTime_id_of_invalid s.loop a b raw hs he hv

theorem loop_region_invariant_amended_witness :
    ((setLoopPointB c5state).loop = c5state.loop ∨
      ∃ a, c5state.loop.loopStart = some a ∧ a < c5state.currentTime ∧
        (setLoopPointB c5state).loop = ⟨true, some a, some c5state.currentTime⟩) ∧
    (∀ a b raw, c5state.loop.loopStart = some a → c5state.loop.loopEnd = some b →
      ¬ b > a → getNormalizedTime c5state.loop raw = raw) :=
  loop_region_invariant_amended c5state

/-- C9 counterexample: after a failed load the context exists, loading
has finished, and no buffers are present; `play()` then is not a no-op —
it leaves the transport state and anchors changed (Playing becomes true
and the clock is re-anchored at the call instant), even though it starts
no sources. -/
theorem play_not_ready_counterexample :
    notReadyState.buffers = [] ∧
    notReadyState.isPlaying = false ∧
    notReadyState.anchorCtxTime = 0 ∧
    (play notReadyState 3).isPlaying = true ∧
    (play notReadyState 3).anchorCtxTime = 3 := by
  norm_num [notReadyState, play, getNormalizedTime, mkSource]

/-- C9 amended: `play()` is a guarded no-op exactly when the audio
context is absent (torn down) or a load is in progress.  With a context
present and loading finished but no decoded buffers, `play()` starts no
sources and leaves `pauseTime` unchanged, but it still re-anchors the
clock and transitions to Playing rather than leaving the state
untouched. -/
theorem play_not_ready_amended (s : PlayerState) (now : ℚ) :
    ((s.hasCtx = false ∨ s.isLoading = true) → play s now = s) ∧
    (s.hasCtx = true → s.isLoading = false → s.buffers = [] →
      (play s now).sources = [] ∧ (play s now).isPlaying = true ∧
      (play s now).pauseTime = s.pauseTime ∧
      (play s now).anchorCtxTime = now) := by
  constructor
  · intro h
    unfold play
    rcases h with h | h <;> rw [h] <;> simp
  · intro h1 h2 h3
    unfold play
    rw [h1, h2, h3]
    simp

theorem play_not_ready_amended_witness :
    play loadingState 3 = loadingState ∧
    ((play notReadyState 3).sources = [] ∧
      (play notReadyState 3).isPlaying = true ∧
      (play notReadyState 3).pauseTime = notReadyState.pauseTime ∧
      (play notReadyState 3).anchorCtxTime = 3) :=
  ⟨(play_not_ready_amended loadingState 3).1 (Or.inr rfl),
   (play_not_ready_amended notReadyState 3).2 rfl rfl rfl⟩

/-- C10: completing a load with stems leaves the master track muted
(gain 0) and all four stems at gain 1; with no stems the master stays at
gain 1.  Toggling one stem's mute changes only that stem's gain and
leaves the master and the other stems alone, and toggling the master
changes no stem gain — layering the master with stems is permitted. -/
theorem default_mix_policy :
    applyMutes (initMasterMuted true) initialStemMutes = ⟨0, 1, 1, 1, 1⟩ ∧
    (applyMutes (initMasterMuted false) initialStemMutes).master = 1 ∧
    (∀ m sm k j, j ≠ k →
      (applyMutes m (toggleStem k sm)).stem j = (applyMutes m sm).stem j) ∧
    (∀ m sm k,
      (applyMutes m (toggleStem k sm)).master = (applyMutes m sm).master) ∧
    (∀ m sm k,
      (applyMutes (!m) sm).stem k = (applyMutes m sm).stem k) := by
  refine ⟨rfl, rfl, ?_, ?_, ?_⟩
  · intro m sm k j hjk
    cases k <;> cases j <;>
      simp_all [toggleStem, applyMutes, MixGains.stem]
  · intro m sm k
    cases k <;> rfl
  · intro m sm k
    cases k <;> rfl

theorem default_mix_policy_witness :
    (applyMutes true (toggleStem StemId.vocals initialStemMutes)).stem
        StemId.drums =
      (applyMutes true initialStemMutes).stem StemId.drums :=
  default_mix_policy.2.2.1 true initialStemMutes StemId.vocals StemId.drums
    (by decide)

/-- C1: continuity across a rate change.  While Playing with a live
context, cycling the playback rate at hardware time `t0` leaves the
reported song time at `t0` unchanged: the tick outcome computed from the
new anchor and new rate equals the one computed from the old anchor and
old rate, because `changeSpeed` first evaluates the current song time
under the old rate and re-anchors at `(t0, currentSongTime)` before
installing the new rate. -/
theorem rate_change_time_continuity (s : PlayerState) (t0 : ℚ)
    (h1 : s.hasCtx = true) (h2 : s.isPlaying = true) :
    (update (changeSpeed s t0) t0).2 = (update s t0).2 := by
  have hq : (changeSpeed s t0).hasCtx = true := by
    rw [changeSpeed_hasCtx, h1]
  rw [update_snd (changeSpeed s t0) t0 hq, update_snd s t0 h1,
    changeSpeed_loop, changeSpeed_duration, changeSpeed_raw s t0 h1 h2]
  by_cases hc :
      (s.loop.isLooping && s.loop.loopEnd.isSome && s.loop.loopStart.isSome) = true
  · rw [if_pos hc, if_pos hc, getNormalizedTime_idem]
  · have hcf :
        (s.loop.isLooping && s.loop.loopEnd.isSome && s.loop.loopStart.isSome) = false :=
      Bool.eq_false_iff.mpr hc
    rw [if_neg hc, if_neg hc, getNormalizedTime_id_of_inactive s.loop _ hcf]

theorem rate_change_time_continuity_witness :
    (update (changeSpeed pstate 2) 2).2 = (update pstate 2).2 :=
  rate_change_time_continuity pstate 2 rfl rfl

/-- C3: pause/resume exactness.  If a tick at `now` reports song time `T`
with `0 ≤ T < duration`, then pausing at `now` stores exactly `T` as
`pauseTime`, and an immediately following `play` at `now2` re-anchors the
clock at `(now2, T)`, starts every track's source at offset `T`, and the
next tick reports `T` again — playback resumes from `T`, not from 0. -/
theorem pause_resume_exact (s : PlayerState) (now now2 T : ℚ)
    (hctx : s.hasCtx = true) (hload : s.isLoading = false)
    (hrep : (update s now).2 = .reported T)
    (_hT0 : 0 ≤ T) (hTd : T < s.duration) :
    (pause s now).pauseTime = T ∧
    (play (pause s now) now2).anchorTime = T ∧
    (play (pause s now) now2).anchorCtxTime = now2 ∧
    (∀ kc ∈ (play (pause s now) now2).sources,
      (kc : String × SourceCfg).2.offset = T) ∧
    (update (play (pause s now) now2) now2).2 = .reported T := by
  rw [update_snd s now hctx] at hrep
  have key : getNormalizedTime s.loop (rawSongTimeAt s now) = T ∧
      getNormalizedTime s.loop T = T := by
    by_cases hc :
        (s.loop.isLooping && s.loop.loopEnd.isSome && s.loop.loopStart.isSome) = true
    · rw [if_pos hc] at hrep
      injection hrep with hN
      exact ⟨hN, by rw [← hN]; exact getNormalizedTime_idem s.loop _⟩
    · have hcf :
          (s.loop.isLooping && s.loop.loopEnd.isSome && s.loop.loopStart.isSome) = false :=
        Bool.eq_false_iff.mpr hc
      rw [if_neg hc] at hrep
      by_cases hd : rawSongTimeAt s now ≥ s.duration
      · rw [if_pos hd] at hrep
        exact absurd hrep (by simp)
      · rw [if_neg hd] at hrep
        injection hrep with hN
        refine ⟨?_, getNormalizedTime_id_of_inactive s.loop T hcf⟩
        rw [getNormalizedTime_id_of_inactive s.loop _ hcf]
        exact hN
  obtain ⟨hP, hfix⟩ := key
  have hps := pause_eq s now hctx
  have hpt : (pause s now).pauseTime = T := by rw [hps]; exact hP
  have hctx2 : (pause s now).hasCtx = true := by rw [hps]; exact hctx
  have hload2 : (pause s now).isLoading = false := by rw [hps]; exact hload
  have hloop2 : (pause s now).loop = s.loop := by rw [hps]
  have hdur2 : (pause s now).duration = s.duration := by rw [hps]
  have hplay := play_eq (pause s now) now2 hctx2 hload2
  have hN2 : getNormalizedTime (pause s now).loop (pause s now).pauseTime = T := by
    rw [hloop2, hpt]
    exact hfix
  have hanchor : (play (pause s now) now2).anchorTime = T := by
    rw [hplay]
    exact hN2
  have hanchorCtx : (play (pause s now) now2).anchorCtxTime = now2 := by
    rw [hplay]
  have hloop3 : (play (pause s now) now2).loop = s.loop := by
    rw [hplay]
    exact hloop2
  have hdur3 : (play (pause s now) now2).duration = s.duration := by
    rw [hplay]
    exact hdur2
  have hctx3 : (play (pause s now) now2).hasCtx = true := by
    rw [hplay]
    exact hctx2
  refine ⟨hpt, hanchor, hanchorCtx, ?_, ?_⟩
  · intro kc hkc
    rw [hplay] at hkc
    rcases List.mem_map.mp hkc with ⟨k, _, rfl⟩
    show (mkSource (pause s now).loop (pause s now).playbackRate
      (getNormalizedTime (pause s now).loop (pause s now).pauseTime)
      (pause s now).duration).offset = T
    rw [hN2, hdur2]
    unfold mkSource
    dsimp only
    rw [if_neg (not_le.mpr hTd)]
  · rw [update_snd _ now2 hctx3, hloop3, hdur3]
    have hraw2 : rawSongTimeAt (play (pause s now) now2) now2 = T := by
      unfold rawSongTimeAt
      rw [hanchor, hanchorCtx]
      ring
    rw [hraw2]
    by_cases hc2 :
        (s.loop.isLooping && s.loop.loopEnd.isSome && s.loop.loopStart.isSome) = true
    · rw [if_pos hc2, hfix]
    · rw [if_neg hc2, if_neg (not_le.mpr hTd)]

theorem pause_resume_exact_witness :
    (pause pstate 3).pauseTime = 3 ∧
    (play (pause pstate 3) 5).anchorTime = 3 ∧
    (play (pause pstate 3) 5).anchorCtxTime = 5 ∧
    (∀ kc ∈ (play (pause pstate 3) 5).sources,
      (kc : String × SourceCfg).2.offset = 3) ∧
    (update (play (pause pstate 3) 5) 5).2 = .reported 3 :=
  pause_resume_exact pstate 3 5 3 rfl rfl
    (by norm_num [update, pstate, rawSongTimeAt, getNormalizedTime])
    (by norm_num) (by norm_num [pstate])

/-- C6: phase lock.  With a live context and no load in progress, after
`play` every track's source carries the identical configuration (offset,
rate, native loop bounds); `changeSpeed` preserves that alignment (it
writes the same new rate to every source); and a seek while playing
restarts all tracks through `play`, again aligned.  All tracks therefore
derive their song time from the same anchor and the same source setup. -/
theorem phase_lock_sources (s : PlayerState) (now newTime : ℚ)
    (h1 : s.hasCtx = true) (h2 : s.isLoading = false) :
    sourcesAligned (play s now).sources ∧
    (sourcesAligned s.sources → sourcesAligned (changeSpeed s now).sources) ∧
    (s.isPlaying = true → sourcesAligned (handleSeek s newTime now).sources) := by
  have hplay : ∀ (st : PlayerState) (n : ℚ), st.hasCtx = true → st.isLoading = false →
      sourcesAligned (play st n).sources := by
    intro st n ha hb
    rw [play_eq st n ha hb]
    intro c1 hc1 c2 hc2
    rcases List.mem_map.mp hc1 with ⟨k1, _, rfl⟩
    rcases List.mem_map.mp hc2 with ⟨k2, _, rfl⟩
    rfl
  refine ⟨hplay s now h1 h2, ?_, ?_⟩
  · intro hal
    have hsrc : (changeSpeed s now).sources =
        s.sources.map (fun kc => (kc.1, { kc.2 with rate := nextSpeed s.playbackRate })) := by
      unfold changeSpeed
      dsimp only
      split <;> rfl
    rw [hsrc]
    intro c1 hc1 c2 hc2
    rcases List.mem_map.mp hc1 with ⟨a1, ha1, rfl⟩
    rcases List.mem_map.mp hc2 with ⟨a2, ha2, rfl⟩
    dsimp only
    rw [hal a1 ha1 a2 ha2]
  · intro hp
    have hseek : handleSeek s newTime now =
        play { s with
          pauseTime := newTime
          anchorTime := newTime
          anchorCtxTime := if s.hasCtx then now else s.anchorCtxTime
          currentTime := newTime } now := by
      unfold handleSeek
      rw [h2]
      simp only [Bool.false_eq_true, if_false]
      rw [hp]
      simp only [if_true]
    rw [hseek]
    exact hplay _ now h1 h2

theorem phase_lock_sources_witness :
    sourcesAligned (play pstate 0).sources ∧
    (sourcesAligned pstate.sources → sourcesAligned (changeSpeed pstate 0).sources) ∧
    (pstate.isPlaying = true → sourcesAligned (handleSeek pstate 1 0).sources) :=
  phase_lock_sources pstate 0 1 rfl rfl

/-- C7: the loop upper bound is never exceeded.  Whenever looping is
enabled with both bounds set and `loopEnd > loopStart`, any song time a
polling tick reports lies in the half-open interval
`[loopStart, loopEnd)`: raw times at or past `loopEnd` wrap back toward
`loopStart` and the reported time never reaches `loopEnd`. -/
theorem loop_upper_bound (s : PlayerState) (now a b t : ℚ)
    (hl : s.loop.isLooping = true) (hs : s.loop.loopStart = some a)
    (he : s.loop.loopEnd = some b) (hv : a < b)
    (hrep : (update s now).2 = .reported t) :
    a ≤ t ∧ t < b := by
  by_cases hctx : s.hasCtx = true
  · rw [update_snd s now hctx] at hrep
    have hcond :
        (s.loop.isLooping && s.loop.loopEnd.isSome && s.loop.loopStart.isSome) = true := by
      rw [hl, hs, he]
      rfl
    rw [if_pos hcond] at hrep
    injection hrep with hN
    rw [← hN]
    exact getNormalizedTime_mem s.loop a b _ hl hs he hv
  · have hskip : update s now = (s, .skipped) := by
      unfold update
      rw [Bool.eq_false_iff.mpr hctx]
      rfl
    rw [hskip] at hrep
    exact absurd hrep (by simp)

theorem loop_upper_bound_witness :
    (2 : ℚ) ≤ 2 ∧ (2 : ℚ) < 4 :=
  loop_upper_bound lpstate 5 2 4 2 rfl rfl rfl (by norm_num)
    (by norm_num [update, lpstate, pstate, rawSongTimeAt, getNormalizedTime,
      jsMod, ratTrunc])

/-- C8: end-of-song transition.  While a context is live, with no active
loop (looping off or a bound unset), on a tick whose computed raw song
time reaches the duration the controller ends playback: the tick outcome
is `ended`, every source is stopped, `isPlaying` becomes false,
`pauseTime` is reset to 0, and the displayed current time is 0. -/
theorem end_of_song_transition (s : PlayerState) (now : ℚ)
    (hctx : s.hasCtx = true)
    (hloop : (s.loop.isLooping && s.loop.loopEnd.isSome && s.loop.loopStart.isSome) = false)
    (hend : rawSongTimeAt s now ≥ s.duration) :
    (update s now).2 = .ended ∧
    (update s now).1.isPlaying = false ∧
    (update s now).1.pauseTime = 0 ∧
    (update s now).1.currentTime = 0 ∧
    ∀ kc ∈ (update s now).1.sources, (kc : String × SourceCfg).2.stopped = true := by
  have hupd : update s now =
      ({ pause s now with pauseTime := 0, currentTime := 0 }, .ended) := by
    unfold update
    rw [hctx, hloop]
    simp only [Bool.not_true, Bool.false_eq_true, if_false]
    rw [if_pos hend]
  rw [hupd, pause_eq s now hctx]
  refine ⟨rfl, rfl, rfl, rfl, ?_⟩
  intro kc hkc
  rcases List.mem_map.mp hkc with ⟨a, _, rfl⟩
  rfl

theorem end_of_song_transition_witness :
    (update estate 2).2 = .ended ∧
    (update estate 2).1.isPlaying = false ∧
    (update estate 2).1.pauseTime = 0 ∧
    (update estate 2).1.currentTime = 0 ∧
    ∀ kc ∈ (update estate 2).1.sources, (kc : String × SourceCfg).2.stopped = true :=
  end_of_song_transition estate 2 rfl rfl
    (by norm_num [rawSongTimeAt, estate, pstate])

end Cognify
